import Mathlib

/-!
Verification of the client-side streaming message reassembler of the
OurJourney chat frontend.  The definitions below are a shallow embedding of
the WebSocketManager class found in
frontend/src/app/components/websocketManager.jsx: the mutable instance
fields become a state record, each method becomes a state-passing function,
and the three caller-supplied callbacks (messageCallback, infoCallback,
completionCallback) are modelled by presence flags in the state together
with an emitted event list that records every callback invocation in order.
JavaScript string truthiness tests on message text (value truthy and
length positive) are translated as the text being nonempty, which is
equivalent for string payloads.
-/

namespace OurJourney

/-- Callback invocations observable by the caller, in invocation order. -/
inductive Event where
  | message (text : String) (isNewMessage : Bool)
  | info (text : String)
  | complete
deriving DecidableEq

/-- Inbound frames, classified the way handleStreamingMessage dispatches on
the parsed payload: the five recognised type tags, the legacy fallback for
a payload carrying a top-level message field, and unrecognized for a
parseable payload with no recognised tag and no message field. -/
inductive Frame where
  | messageStart
  | contentBlockDelta (text : String)
  | breakTokenType
  | messageStop
  | info (text : String)
  | legacy (text : String)
  | unrecognized
deriving DecidableEq

/-- The mutable instance fields of WebSocketManager.  Callbacks are
modelled by Bool flags saying whether the corresponding field is non-null;
hasWs models the ws field being non-null; wsCloseRequested records that
ws.close was invoked on the underlying socket. -/
structure WSState where
  currentMessage : String
  hasContent : Bool
  shouldCreateNewMessage : Bool
  messageCallback : Bool
  infoCallback : Bool
  completionCallback : Bool
  isConnected : Bool
  hasWs : Bool
  wsCloseRequested : Bool
  conversationId : Option String
deriving DecidableEq

/-- State produced by the WebSocketManager constructor: every field null,
empty or false. -/
def initState : WSState :=
  { currentMessage := ""
    hasContent := false
    shouldCreateNewMessage := false
    messageCallback := false
    infoCallback := false
    completionCallback := false
    isConnected := false
    hasWs := false
    wsCloseRequested := false
    conversationId := none }

/-- State at the start of one sendMessageAndWaitForResponse turn: the three
callbacks have been stored and connect has resolved. -/
def initTurnState : WSState :=
  { initState with
    messageCallback := true
    infoCallback := true
    completionCallback := true
    isConnected := true
    hasWs := true }

/-- The close method: requests closure of the socket when one is open, then
resets the message state, keeping conversationId and messageCallback. -/
def close (s : WSState) : WSState :=
  { s with
    wsCloseRequested := s.wsCloseRequested || (s.hasWs && s.isConnected)
    currentMessage := ""
    hasContent := false
    shouldCreateNewMessage := false
    infoCallback := false
    completionCallback := false }

/-- The handleStreamingMessage method: dispatch on the frame kind, mutate
the accumulator fields and return the list of callback invocations made
while processing this one frame. -/
def handleStreamingMessage (s : WSState) (f : Frame) : WSState × List Event :=
  match f with
  | Frame.messageStart =>
      ({ s with currentMessage := "", hasContent := false,
                shouldCreateNewMessage := false }, [])
  | Frame.contentBlockDelta text =>
      if text ≠ "" then
        let cur := s.currentMessage ++ text
        ({ s with currentMessage := cur, hasContent := true,
                  shouldCreateNewMessage := false },
         if s.messageCallback = true then
           [Event.message cur s.shouldCreateNewMessage] else [])
      else (s, [])
  | Frame.breakTokenType =>
      if s.hasContent = true ∧ s.currentMessage ≠ "" then
        ({ s with currentMessage := "", hasContent := false,
                  shouldCreateNewMessage := true },
         if s.messageCallback = true then
           [Event.message s.currentMessage false] else [])
      else (s, [])
  | Frame.messageStop =>
      (close s, if s.completionCallback = true then [Event.complete] else [])
  | Frame.info text =>
      (s, if s.infoCallback = true then [Event.info text] else [])
  | Frame.legacy text =>
      if text ≠ "" ∧ s.messageCallback = true then
        (close s,
         Event.message text false ::
           (if s.completionCallback = true then [Event.complete] else []))
      else (s, [])
  | Frame.unrecognized => (s, [])

/-- Process a list of frames in arrival order, collecting every callback
invocation. -/
def processFrames (s : WSState) : List Frame → WSState × List Event
  | [] => (s, [])
  | f :: fs =>
    let r := handleStreamingMessage s f
    let r2 := processFrames r.1 fs
    (r2.1, r.2 ++ r2.2)

/-- The ws.onmessage handler: an unparseable payload (none) makes
JSON.parse throw, the exception is caught and logged, and the frame is
dropped; a parseable payload is passed to handleStreamingMessage. -/
def onRawMessage (s : WSState) : Option Frame → WSState × List Event
  | none => (s, [])
  | some f => handleStreamingMessage s f

/-- Process a list of raw inbound payloads through the onmessage handler. -/
def processRaw (s : WSState) : List (Option Frame) → WSState × List Event
  | [] => (s, [])
  | r :: rs =>
    let a := onRawMessage s r
    let a2 := processRaw a.1 rs
    (a2.1, a.2 ++ a2.2)

/-- The conversation-identity persistence slot (localStorage) together with
flags saying whether each of the three operations used by the manager
throws when attempted. -/
structure Store where
  value : Option String
  readFails : Bool
  writeFails : Bool
  removeFails : Bool
deriving DecidableEq

/-- Reading localStorage.getItem inside the try block of getConversationId:
a throwing read is caught and behaves like an absent value. -/
def readStored (st : Store) : Option String :=
  if st.readFails then none else st.value

/-- The startNewConversation method, with the freshly generated identity
passed in as a parameter (the source draws it from Math.random): sets the
in-memory identity, attempts to persist it (a throwing write is caught),
and returns it. -/
def startNewConversation (st : Store) (fresh : String) :
    String × Option String × Store :=
  (fresh, some fresh,
   if st.writeFails then st else { st with value := some fresh })

/-- The getConversationId method: return the in-memory identity when set;
otherwise recover a truthy stored value; otherwise generate a new one.
Result is the returned identity, the new in-memory identity and the new
store. -/
def getConversationId (cid : Option String) (st : Store) (fresh : String) :
    String × Option String × Store :=
  match cid with
  | some c => (c, some c, st)
  | none =>
    match readStored st with
    | some stored =>
        if stored = "" then startNewConversation st fresh
        else (stored, some stored, st)
    | none => startNewConversation st fresh

/-- The clearConversation method: null the in-memory identity and attempt
to remove the persisted copy (a throwing removal is caught). -/
def clearConversation (st : Store) : Option String × Store :=
  (none, if st.removeFails then st else { st with value := none })

/-- The outbound envelope built by sendMessage. -/
structure Packet where
  action : String
  message : String
  messages : List String
  conversationId : String
  userInfo : Option String
deriving DecidableEq

/-- The sendMessage method: reject immediately when not connected;
otherwise obtain the conversation identity, build the packet and attempt
ws.send, whose failure (modelled by sendFails) rejects after the identity
was already updated. -/
def sendMessage (s : WSState) (st : Store) (fresh msg : String)
    (hist : List String) (ui : Option String) (sendFails : Bool) :
    Except String Packet × WSState × Store :=
  if s.isConnected = false then
    (Except.error "WebSocket is not connected", s, st)
  else
    let g := getConversationId s.conversationId st fresh
    let s2 := { s with conversationId := g.2.1 }
    let packet : Packet :=
      { action := "sendMessage", message := msg, messages := hist,
        conversationId := g.1, userInfo := ui }
    if sendFails then (Except.error "send threw", s2, g.2.2)
    else (Except.ok packet, s2, g.2.2)

/-- Concatenation of a list of delta texts. -/
def concatTexts : List String → String
  | [] => ""
  | t :: ts => t ++ concatTexts ts

/-- The callback invocations produced by a run of nonempty deltas starting
from accumulated text base with the new-message flag pending. -/
def deltaEvents (base : String) (pending : Bool) : List String → List Event
  | [] => []
  | t :: ts => Event.message (base ++ t) pending :: deltaEvents (base ++ t) false ts

/-- Recogniser for completion events. -/
def isComplete : Event → Bool
  | Event.complete => true
  | _ => false

/-- Scan of an event list checking that info events occur only while the
info callback is live, that a completion event occurs only while the
completion callback is live, and that both callbacks are dead from the
first completion on. -/
def okAfter : Bool → Bool → List Event → Bool
  | _, _, [] => true
  | _, b, Event.complete :: rest => b && okAfter false false rest
  | a, b, Event.info _ :: rest => a && okAfter a b rest
  | a, b, Event.message _ _ :: rest => okAfter a b rest

/-- The accumulator invariant: hasContent tracks nonemptiness of the
accumulated text, and a pending new-message flag implies an empty
accumulator. -/
def Inv (s : WSState) : Prop :=
  (s.hasContent = true ↔ s.currentMessage ≠ "") ∧
  (s.shouldCreateNewMessage = true → s.currentMessage = "" ∧ s.hasContent = false)

/-- States reachable from the constructor state by frame processing and
close calls. -/
inductive Reachable : WSState → Prop where
  | init : Reachable initState
  | frame (s : WSState) (f : Frame) : Reachable s →
      Reachable (handleStreamingMessage s f).1
  | closeStep (s : WSState) : Reachable s → Reachable (close s)

/-- The frame list of Scenario B of the specification. -/
def scenarioB : List Frame :=
  [Frame.messageStart, Frame.contentBlockDelta "Thinking...",
   Frame.breakTokenType, Frame.contentBlockDelta "Answer", Frame.messageStop]


lemma str_append_ne_empty (a t : String) (h : t ≠ "") : a ++ t ≠ "" := by
  intro hc
  apply h
  have hd := congrArg String.data hc
  simp [String.data_append] at hd
  exact String.ext hd.2

lemma processFrames_cons (s : WSState) (f : Frame) (fs : List Frame) :
    processFrames s (f :: fs) =
      ((processFrames (handleStreamingMessage s f).1 fs).1,
       (handleStreamingMessage s f).2 ++
         (processFrames (handleStreamingMessage s f).1 fs).2) := rfl

lemma processFrames_append (l1 l2 : List Frame) : ∀ s : WSState,
    processFrames s (l1 ++ l2) =
      ((processFrames (processFrames s l1).1 l2).1,
       (processFrames s l1).2 ++ (processFrames (processFrames s l1).1 l2).2) := by
  induction l1 with
  | nil => intro s; simp [processFrames]
  | cons f l1 ih =>
    intro s
    simp [processFrames_cons, List.cons_append, ih]

lemma okAfter_relax (l : List Event) : ∀ a b : Bool,
    okAfter false false l = true → okAfter a b l = true := by
  induction l with
  | nil => intro a b _; rfl
  | cons e rest ih =>
    intro a b h
    cases e with
    | complete => simp [okAfter] at h
    | info t => simp [okAfter] at h
    | message t n =>
      rw [okAfter] at h ⊢
      exact ih a b h

lemma okAfter_step (s : WSState) (f : Frame) (k : List Event)
    (hk : okAfter (handleStreamingMessage s f).1.infoCallback
            (handleStreamingMessage s f).1.completionCallback k = true) :
    okAfter s.infoCallback s.completionCallback
      ((handleStreamingMessage s f).2 ++ k) = true := by
  cases f with
  | messageStart => simpa [handleStreamingMessage] using hk
  | contentBlockDelta text =>
    by_cases ht : text = ""
    · simpa [handleStreamingMessage, ht] using hk
    · by_cases hm : s.messageCallback = true
      · simp only [handleStreamingMessage, if_pos (by exact ht : text ≠ ""), if_pos hm] at hk ⊢
        simpa [okAfter] using hk
      · simp only [handleStreamingMessage, if_pos (by exact ht : text ≠ ""), if_neg hm] at hk ⊢
        simpa [okAfter] using hk
  | breakTokenType =>
    by_cases hb : s.hasContent = true ∧ s.currentMessage ≠ ""
    · by_cases hm : s.messageCallback = true
      · simp only [handleStreamingMessage, if_pos hb, if_pos hm] at hk ⊢
        simpa [okAfter] using hk
      · simp only [handleStreamingMessage, if_pos hb, if_neg hm] at hk ⊢
        simpa [okAfter] using hk
    · simpa [handleStreamingMessage, if_neg hb] using hk
  | messageStop =>
    by_cases hc : s.completionCallback = true
    · simp only [handleStreamingMessage, if_pos hc] at hk ⊢
      simp only [close] at hk
      simp [okAfter, hc]
      exact hk
    · simp only [handleStreamingMessage, if_neg hc] at hk ⊢
      simp only [close] at hk
      simp only [List.nil_append]
      have : s.completionCallback = false := by
        cases h : s.completionCallback with
        | false => rfl
        | true => exact absurd h hc
      rw [this]
      exact okAfter_relax k s.infoCallback false hk
  | info text =>
    by_cases hi : s.infoCallback = true
    · simp only [handleStreamingMessage, if_pos hi] at hk ⊢
      rw [hi] at hk
      simp [okAfter, hi]
      exact hk
    · have : s.infoCallback = false := by
        cases h : s.infoCallback with
        | false => rfl
        | true => exact absurd h hi
      simp only [handleStreamingMessage, if_neg hi] at hk ⊢
      rw [List.nil_append, this]
      rw [this] at hk
      exact hk
  | legacy text =>
    by_cases hl : text ≠ "" ∧ s.messageCallback = true
    · by_cases hc : s.completionCallback = true
      · simp only [handleStreamingMessage, if_pos hl, if_pos hc] at hk ⊢
        simp only [close] at hk
        simp [okAfter, hc]
        exact hk
      · have hcf : s.completionCallback = false := by
          cases h : s.completionCallback with
          | false => rfl
          | true => exact absurd h hc
        simp only [handleStreamingMessage, if_pos hl, if_neg hc] at hk ⊢
        simp only [close] at hk
        simp only [List.cons_append, List.nil_append, okAfter, hcf]
        exact okAfter_relax k s.infoCallback false hk
    · simpa [handleStreamingMessage, if_neg hl] using hk
  | unrecognized => simpa [handleStreamingMessage] using hk

lemma okAfter_run (fs : List Frame) : ∀ s : WSState,
    okAfter s.infoCallback s.completionCallback (processFrames s fs).2 = true := by
  induction fs with
  | nil => intro s; rfl
  | cons f fs ih =>
    intro s
    rw [processFrames_cons]
    exact okAfter_step s f _ (ih _)


lemma okAfter_no_complete (l : List Event) : ∀ a : Bool,
    okAfter a false l = true → l.countP isComplete = 0 := by
  induction l with
  | nil => intro a _; rfl
  | cons e rest ih =>
    intro a h
    cases e with
    | complete => simp [okAfter] at h
    | info t =>
      rw [okAfter] at h
      simp only [Bool.and_eq_true] at h
      simp [List.countP_cons, isComplete, ih a h.2]
    | message t n =>
      rw [okAfter] at h
      simp [List.countP_cons, isComplete, ih a h]

lemma okAfter_count_le_one (l : List Event) : ∀ a b : Bool,
    okAfter a b l = true → l.countP isComplete ≤ 1 := by
  induction l with
  | nil => intro a b _; simp
  | cons e rest ih =>
    intro a b h
    cases e with
    | complete =>
      rw [okAfter] at h
      simp only [Bool.and_eq_true] at h
      simp [List.countP_cons, isComplete, okAfter_no_complete rest false h.2]
    | info t =>
      rw [okAfter] at h
      simp only [Bool.and_eq_true] at h
      simp only [List.countP_cons, isComplete]
      simpa using ih a b h.2
    | message t n =>
      rw [okAfter] at h
      simp only [List.countP_cons, isComplete]
      simpa using ih a b h

lemma okAfter_no_info (l : List Event) : ∀ b : Bool,
    okAfter false b l = true → ∀ t : String, Event.info t ∉ l := by
  induction l with
  | nil => intro b _ t; simp
  | cons e rest ih =>
    intro b h t
    cases e with
    | complete =>
      rw [okAfter] at h
      simp only [Bool.and_eq_true] at h
      simp only [List.mem_cons]
      rintro (hc | hc)
      · exact Event.noConfusion hc
      · exact ih false h.2 t hc
    | info u => simp [okAfter] at h
    | message u n =>
      rw [okAfter] at h
      simp only [List.mem_cons]
      rintro (hc | hc)
      · exact Event.noConfusion hc
      · exact ih b h t hc

lemma okAfter_split (pre : List Event) : ∀ (l post : List Event) (a b : Bool),
    okAfter a b l = true → l = pre ++ Event.complete :: post →
    ∀ t : String, Event.info t ∉ post := by
  induction pre with
  | nil =>
    intro l post a b h hl t
    subst hl
    simp only [List.nil_append] at h
    rw [okAfter] at h
    simp only [Bool.and_eq_true] at h
    exact okAfter_no_info post false h.2 t
  | cons x pre ih =>
    intro l post a b h hl t
    subst hl
    simp only [List.cons_append] at h
    cases x with
    | complete =>
      rw [okAfter] at h
      simp only [Bool.and_eq_true] at h
      exact ih _ post false false h.2 rfl t
    | info u =>
      rw [okAfter] at h
      simp only [Bool.and_eq_true] at h
      exact ih _ post a b h.2 rfl t
    | message u n =>
      rw [okAfter] at h
      exact ih _ post a b h rfl t

lemma step_cc (s : WSState) (f : Frame) :
    ((handleStreamingMessage s f).1.completionCallback = s.completionCallback
      ∧ (handleStreamingMessage s f).2.countP isComplete = 0)
    ∨ (s.completionCallback = true
      ∧ 1 ≤ (handleStreamingMessage s f).2.countP isComplete) := by
  cases f with
  | messageStart => left; simp [handleStreamingMessage]
  | contentBlockDelta text =>
      left
      by_cases ht : text = ""
      · simp [handleStreamingMessage, ht]
      · by_cases hm : s.messageCallback = true <;>
          simp [handleStreamingMessage, ht, hm, List.countP_cons, isComplete]
  | breakTokenType =>
      left
      by_cases hb : s.hasContent = true ∧ s.currentMessage ≠ ""
      · by_cases hm : s.messageCallback = true <;>
          simp [handleStreamingMessage, hb, hm, List.countP_cons, isComplete]
      · simp [handleStreamingMessage, hb]
  | messageStop =>
      by_cases hc : s.completionCallback = true
      · right
        simp [handleStreamingMessage, hc, List.countP_cons, isComplete]
      · left
        have hcf : s.completionCallback = false := by
          cases h : s.completionCallback with
          | false => rfl
          | true => exact absurd h hc
        simp [handleStreamingMessage, hcf, close]
  | info text =>
      left
      by_cases hi : s.infoCallback = true <;>
        simp [handleStreamingMessage, hi, List.countP_cons, isComplete]
  | legacy text =>
      by_cases hl : text ≠ "" ∧ s.messageCallback = true
      · by_cases hc : s.completionCallback = true
        · right
          simp [handleStreamingMessage, hl, hc, List.countP_cons, isComplete]
        · left
          have hcf : s.completionCallback = false := by
            cases h : s.completionCallback with
            | false => rfl
            | true => exact absurd h hc
          simp [handleStreamingMessage, hl, hcf, close, List.countP_cons, isComplete]
      · left; simp [handleStreamingMessage, hl]
  | unrecognized => left; simp [handleStreamingMessage]

lemma cc_goes_false (l : List Frame) : ∀ s : WSState,
    s.completionCallback = true →
    (processFrames s l).1.completionCallback = false →
    1 ≤ (processFrames s l).2.countP isComplete := by
  induction l with
  | nil =>
    intro s h1 h2
    simp only [processFrames] at h2
    rw [h1] at h2
    exact absurd h2 (by simp)
  | cons f l ih =>
    intro s h1 h2
    rw [processFrames_cons] at h2 ⊢
    simp only [List.countP_append]
    rcases step_cc s f with ⟨hcc, _⟩ | ⟨_, hone⟩
    · have := ih (handleStreamingMessage s f).1 (hcc.trans h1) h2
      omega
    · omega


lemma processFrames_deltas (texts : List String) : ∀ s : WSState,
    s.messageCallback = true → (∀ t ∈ texts, t ≠ "") →
    (processFrames s (texts.map Frame.contentBlockDelta)).2
      = deltaEvents s.currentMessage s.shouldCreateNewMessage texts := by
  induction texts with
  | nil => intro s _ _; rfl
  | cons t ts ih =>
    intro s hm hne
    have ht : t ≠ "" := hne t (by simp)
    rw [List.map_cons, processFrames_cons]
    simp only [handleStreamingMessage, if_pos ht, if_pos hm]
    rw [deltaEvents]
    rw [ih _ (by simp [hm]) (fun u hu => hne u (by simp [hu]))]
    simp

lemma deltaEvents_get (texts : List String) : ∀ (base : String) (pending : Bool)
    (i : Nat), i < texts.length →
    (deltaEvents base pending texts).get? i
      = some (Event.message (base ++ concatTexts (texts.take (i + 1)))
               (decide (i = 0) && pending)) := by
  induction texts with
  | nil => intro base pending i hi; simp at hi
  | cons t ts ih =>
    intro base pending i hi
    cases i with
    | zero =>
      simp only [deltaEvents, List.get?, List.take, concatTexts,
        String.append_empty, decide_True, Bool.true_and]
    | succ j =>
      simp only [deltaEvents, List.get?, List.take, concatTexts]
      rw [ih (base ++ t) false j (by simpa using hi)]
      simp [String.append_assoc]

lemma Inv_close (s : WSState) : Inv (close s) := by
  constructor
  · simp [close]
  · simp [close]

lemma Inv_step (s : WSState) (f : Frame) (h : Inv s) :
    Inv (handleStreamingMessage s f).1 := by
  obtain ⟨h1, h2⟩ := h
  cases f with
  | messageStart => constructor <;> simp [handleStreamingMessage]
  | contentBlockDelta text =>
    by_cases ht : text = ""
    · simp only [handleStreamingMessage, ht]
      exact ⟨by simpa using h1, by simpa using h2⟩
    · simp only [handleStreamingMessage, if_pos (ht : text ≠ "")]
      constructor
      · simp [str_append_ne_empty s.currentMessage text ht]
      · simp
  | breakTokenType =>
    by_cases hb : s.hasContent = true ∧ s.currentMessage ≠ ""
    · simp only [handleStreamingMessage, if_pos hb]
      constructor <;> simp
    · simp only [handleStreamingMessage, if_neg hb]
      exact ⟨h1, h2⟩
  | messageStop => exact Inv_close s
  | info text => exact ⟨h1, h2⟩
  | legacy text =>
    by_cases hl : text ≠ "" ∧ s.messageCallback = true
    · simp only [handleStreamingMessage, if_pos hl]
      exact Inv_close s
    · simp only [handleStreamingMessage, if_neg hl]
      exact ⟨h1, h2⟩
  | unrecognized => exact ⟨h1, h2⟩

lemma Inv_reachable (s : WSState) (h : Reachable s) : Inv s := by
  induction h with
  | init => constructor <;> simp [initState, Inv]
  | frame s f _ ih => exact Inv_step s f ih
  | closeStep s _ _ => exact Inv_close s


/-- C1: processing a run of nonempty deltas with no intervening break or
message start, from an empty accumulator, makes the i-th onMessage text the
concatenation of the first i+1 delta texts; in particular the n-th call
carries the concatenation of all n texts. -/
theorem append_invariant (s : WSState) (texts : List String)
    (hcur : s.currentMessage = "") (hm : s.messageCallback = true)
    (hne : ∀ t ∈ texts, t ≠ "") (i : Nat) (hi : i < texts.length) :
    ((processFrames s (texts.map Frame.contentBlockDelta)).2).get? i
      = some (Event.message (concatTexts (texts.take (i + 1)))
               (decide (i = 0) && s.shouldCreateNewMessage)) := by
  rw [processFrames_deltas texts s hm hne,
    deltaEvents_get texts s.currentMessage s.shouldCreateNewMessage i hi,
    hcur, String.empty_append]

theorem append_invariant_witness :
    ((processFrames initTurnState
        (["Hi", " there"].map Frame.contentBlockDelta)).2).get? 1
      = some (Event.message (concatTexts (["Hi", " there"].take 2))
               (decide (1 = 0) && initTurnState.shouldCreateNewMessage)) :=
  append_invariant initTurnState ["Hi", " there"] rfl rfl (by decide) 1 (by decide)

/-- C2: a break token arriving over nonempty accumulated content emits
exactly one finalizing onMessage with the pre-break text and false, resets
the accumulator with the pending-new-message flag set, and the next
nonempty delta emits exactly the new text with true; concretely, Scenario
B produces the four expected callbacks. -/
theorem break_isolation :
    (∀ s : WSState, s.hasContent = true → s.currentMessage ≠ "" →
      s.messageCallback = true →
      handleStreamingMessage s Frame.breakTokenType
        = ({ s with currentMessage := "", hasContent := false,
                    shouldCreateNewMessage := true },
           [Event.message s.currentMessage false])
      ∧ ∀ u : String, u ≠ "" →
          (handleStreamingMessage
            { s with currentMessage := "", hasContent := false,
                     shouldCreateNewMessage := true }
            (Frame.contentBlockDelta u)).2 = [Event.message u true])
    ∧ (processFrames initTurnState scenarioB).2
        = [Event.message "Thinking..." false, Event.message "Thinking..." false,
           Event.message "Answer" true, Event.complete] := by
  constructor
  · intro s hc hcur hm
    constructor
    · simp [handleStreamingMessage, hc, hcur, hm]
    · intro u hu
      simp [handleStreamingMessage, hu, hm, String.empty_append]
  · decide

theorem break_isolation_witness :
    (handleStreamingMessage
        { initTurnState with currentMessage := "A", hasContent := true }
        Frame.breakTokenType).2 = [Event.message "A" false]
    ∧ (handleStreamingMessage
        { initTurnState with currentMessage := "", hasContent := false,
                             shouldCreateNewMessage := true }
        (Frame.contentBlockDelta "B")).2 = [Event.message "B" true] := by
  have h := break_isolation.1
    { initTurnState with currentMessage := "A", hasContent := true }
    rfl (by decide) rfl
  exact ⟨by rw [h.1], h.2 "B" (by decide)⟩

/-- C3 counterexample: a content delta arriving after the terminal
messageStop frame still invokes onMessage, because close does not clear
messageCallback, so an onMessage call follows the onComplete call. -/
theorem completion_ordering_counterexample :
    (processFrames initTurnState
        [Frame.messageStop, Frame.contentBlockDelta "x"]).2
      = [Event.complete, Event.message "x" false] := by decide

/-- C3 amended: within one turn onComplete fires at most once, and no
onInfo call follows it; onMessage calls may still follow it when frames
arrive after the terminal frame. -/
theorem completion_ordering (s : WSState) (fs : List Frame) :
    (processFrames s fs).2.countP isComplete ≤ 1
    ∧ ∀ pre post, (processFrames s fs).2 = pre ++ Event.complete :: post →
        ∀ t : String, Event.info t ∉ post := by
  constructor
  · exact okAfter_count_le_one _ _ _ (okAfter_run fs s)
  · intro pre post hsplit t
    exact okAfter_split pre _ post _ _ (okAfter_run fs s) hsplit t

theorem completion_ordering_witness :
    (processFrames initTurnState [Frame.info "hi", Frame.messageStop]).2.countP
        isComplete ≤ 1
    ∧ Event.info "late" ∉ ([] : List Event) :=
  ⟨(completion_ordering initTurnState [Frame.info "hi", Frame.messageStop]).1,
   (completion_ordering initTurnState [Frame.info "hi", Frame.messageStop]).2
     [Event.info "hi"] [] (by decide) "late"⟩

/-- C4: a frame sequence of one turn ending in messageStop makes the
completion callback fire exactly once, whatever frames precede the final
messageStop. -/
theorem completion_exactly_once (s : WSState) (fs fs0 : List Frame)
    (h1 : s.completionCallback = true) (h2 : fs = fs0 ++ [Frame.messageStop]) :
    (processFrames s fs).2.countP isComplete = 1 := by
  apply le_antisymm
  · exact okAfter_count_le_one _ _ _ (okAfter_run fs s)
  · subst h2
    rw [processFrames_append]
    simp only [List.countP_append]
    by_cases hc : (processFrames s fs0).1.completionCallback = true
    · have hstop :
          (processFrames (processFrames s fs0).1 [Frame.messageStop]).2
            = [Event.complete] := by
        simp [processFrames_cons, processFrames, handleStreamingMessage, hc]
      rw [hstop]
      simp [isComplete]
    · have hcf : (processFrames s fs0).1.completionCallback = false := by
        cases h : (processFrames s fs0).1.completionCallback with
        | false => rfl
        | true => exact absurd h hc
      have := cc_goes_false fs0 s h1 hcf
      omega

theorem completion_exactly_once_witness :
    (processFrames initTurnState
        [Frame.legacy "X", Frame.messageStop]).2.countP isComplete = 1 :=
  completion_exactly_once initTurnState [Frame.legacy "X", Frame.messageStop]
    [Frame.legacy "X"] rfl rfl

/-- C5: inserting an unparseable payload or a payload with no recognised
tag and no message field between two valid frames leaves the callback
sequence and the final state identical to omitting it. -/
theorem malformed_tolerance (s : WSState) (f1 f2 : Frame) :
    processRaw s [some f1, none, some f2]
      = processRaw s [some f1, some f2]
    ∧ processRaw s [some f1, some Frame.unrecognized, some f2]
      = processRaw s [some f1, some f2] := by
  constructor <;> simp [processRaw, onRawMessage, handleStreamingMessage]

/-- C6 counterexample: the legacy frame with the empty string does nothing,
because the source tests truthiness of the message field, so it emits no
onMessage and no onComplete. -/
theorem legacy_empty_counterexample :
    processFrames initTurnState [Frame.legacy ""] = (initTurnState, []) := by
  decide

/-- C6 amended: a legacy frame with a nonempty text X, processed at the
start of a turn, emits exactly onMessage X false then onComplete, and the
session is closed. -/
theorem legacy_short_circuit (X : String) (h : X ≠ "") :
    handleStreamingMessage initTurnState (Frame.legacy X)
      = (close initTurnState, [Event.message X false, Event.complete])
    ∧ (close initTurnState).wsCloseRequested = true := by
  exact ⟨by simp [handleStreamingMessage, initTurnState, initState, h], by decide⟩

theorem legacy_short_circuit_witness :
    handleStreamingMessage initTurnState (Frame.legacy "X")
      = (close initTurnState, [Event.message "X" false, Event.complete])
    ∧ (close initTurnState).wsCloseRequested = true :=
  legacy_short_circuit "X" (by decide)

/-- C7: sendMessage invoked while not connected rejects with the
not-connected error and leaves the manager state and the store exactly as
they were. -/
theorem send_not_connected (s : WSState) (st : Store) (fresh msg : String)
    (hist : List String) (ui : Option String) (sendFails : Bool)
    (h : s.isConnected = false) :
    sendMessage s st fresh msg hist ui sendFails
      = (Except.error "WebSocket is not connected", s, st) := by
  simp [sendMessage, h]

theorem send_not_connected_witness :
    sendMessage initState ⟨none, false, false, false⟩ "fr" "m" [] none false
      = (Except.error "WebSocket is not connected", initState,
         (⟨none, false, false, false⟩ : Store)) :=
  send_not_connected initState ⟨none, false, false, false⟩ "fr" "m" [] none
    false rfl

/-- C8: close is idempotent, resets the accumulator fields and preserves
the conversation identity. -/
theorem close_idempotent (s : WSState) :
    close (close s) = close s
    ∧ (close s).currentMessage = ""
    ∧ (close s).hasContent = false
    ∧ (close s).shouldCreateNewMessage = false
    ∧ (close s).conversationId = s.conversationId := by
  obtain ⟨cm, hco, sn, mc, ic, cc, conn, hw, wcr, cid⟩ := s
  refine ⟨?_, rfl, rfl, rfl, rfl⟩
  cases wcr <;> cases hw <;> cases conn <;> rfl

/-- C9: getConversationId returns an existing identity unchanged, recovers
a persisted identity when none is set, otherwise generates, persists and
returns a fresh one; after any call the identity is set and later calls
return the same value, until clearConversation nulls it and removes the
persisted copy; store failures only force the generated-identity path. -/
theorem conversation_identity (cid : Option String) (st : Store)
    (fresh : String) :
    (∀ c, cid = some c → getConversationId cid st fresh = (c, some c, st))
    ∧ (cid = none → ∀ v, readStored st = some v → v ≠ "" →
        getConversationId cid st fresh = (v, some v, st))
    ∧ (cid = none → readStored st = none →
        getConversationId cid st fresh
          = (fresh, some fresh,
             if st.writeFails then st else { st with value := some fresh }))
    ∧ ((getConversationId cid st fresh).2.1
        = some (getConversationId cid st fresh).1)
    ∧ (∀ st2 fresh2,
        getConversationId (getConversationId cid st fresh).2.1 st2 fresh2
          = ((getConversationId cid st fresh).1,
             (getConversationId cid st fresh).2.1, st2))
    ∧ ((clearConversation st).1 = none
        ∧ (st.removeFails = false → (clearConversation st).2.value = none)) := by
  have h4 : (getConversationId cid st fresh).2.1
      = some (getConversationId cid st fresh).1 := by
    cases cid with
    | some c => rfl
    | none =>
      rcases hr : readStored st with _ | v
      · simp [getConversationId, hr, startNewConversation]
      · by_cases hv : v = "" <;>
          simp [getConversationId, hr, hv, startNewConversation]
  refine ⟨?_, ?_, ?_, h4, ?_, rfl, ?_⟩
  · intro c hc
    subst hc
    rfl
  · intro hc v hv hve
    subst hc
    simp [getConversationId, hv, hve]
  · intro hc hr
    subst hc
    simp [getConversationId, hr, startNewConversation]
  · intro st2 fresh2
    rw [h4]
    rfl
  · intro h
    simp [clearConversation, h]

theorem conversation_identity_witness :
    (getConversationId (some "abc") ⟨none, false, false, false⟩ "fr"
      = ("abc", some "abc", (⟨none, false, false, false⟩ : Store)))
    ∧ (getConversationId none ⟨none, true, false, false⟩ "fr"
      = ("fr", some "fr", (⟨some "fr", true, false, false⟩ : Store)))
    ∧ (clearConversation ⟨some "abc", false, false, false⟩).2.value = none := by
  refine ⟨(conversation_identity (some "abc") ⟨none, false, false, false⟩ "fr").1 "abc" rfl, ?_, ?_⟩
  · have h := (conversation_identity none ⟨none, true, false, false⟩ "fr").2.2.1
      rfl rfl
    simpa using h
  · exact (conversation_identity none ⟨some "abc", false, false, false⟩ "x").2.2.2.2.2.2 rfl

/-- C10: in every state reachable from the constructor state by frame
processing and close calls, hasContent holds exactly when the accumulated
text is nonempty, a pending new-message flag forces an empty accumulator,
and hence the nonempty-text conjunct of the break-token guard is redundant
given hasContent. -/
theorem accumulator_invariant (s : WSState) (h : Reachable s) :
    (s.hasContent = true ↔ s.currentMessage ≠ "")
    ∧ (s.shouldCreateNewMessage = true →
        s.currentMessage = "" ∧ s.hasContent = false)
    ∧ ((s.hasContent = true ∧ s.currentMessage ≠ "") ↔ s.hasContent = true) := by
  obtain ⟨h1, h2⟩ := Inv_reachable s h
  exact ⟨h1, h2, ⟨fun hc => hc.1, fun hc => ⟨hc, h1.mp hc⟩⟩⟩

theorem accumulator_invariant_witness :
    Reachable initState
    ∧ ((initState.hasContent = true ↔ initState.currentMessage ≠ "")
    ∧ (initState.shouldCreateNewMessage = true →
        initState.currentMessage = "" ∧ initState.hasContent = false)
    ∧ ((initState.hasContent = true ∧ initState.currentMessage ≠ "")
        ↔ initState.hasContent = true)) :=
  ⟨Reachable.init, accumulator_invariant initState Reachable.init⟩

end OurJourney
